import Mathlib

/-!
Shallow embedding of the planetarium booking core
(src/planetarium/models.py and src/planetarium/serializers.py).

Database rows become Lean structures, the database state is a record of
lists of rows, and every write operation becomes a pure function
DBState -> Except ApiError DBState.  A `with transaction.atomic()` block
is modelled by the convention that an operation returning `.error`
leaves the observable state unchanged (`commitD`): inside the block the
code may perform a sequence of inserts and then raise, and the framework
rolls every insert back, so the pure short-circuiting function computes
exactly the observable result.  Machine integers of the source are
modelled as Nat (Django PositiveIntegerField and PositiveSmallIntegerField
are non-negative) and Int where a Python subtraction can go negative;
timestamps are abstract Int instants.
-/

/-- Errors surfaced by the core.  `notFound` models the Django
object-missing exceptions (`SeatRow.DoesNotExist` raised by
`SeatRow.objects.get`, and an unresolvable foreign key), which the spec
groups as NotFound; `validationError` carries the message string of a
DRF `ValidationError`; `integrityError` models a database unique
constraint firing at insert time. -/
inductive ApiError where
  | notFound : ApiError
  | validationError : String → ApiError
  | integrityError : ApiError
deriving DecidableEq, Repr

/-- A row of seats (model `SeatRow`): `row_number` and `seats_in_row`,
both PositiveIntegerField.  The owning dome is represented by membership
in the dome record below. -/
structure SeatRow where
  row_number : Nat
  seats_in_row : Nat
deriving DecidableEq, Repr

/-- Model `PlanetariumDome` together with its related `seat_rows` set. -/
structure PlanetariumDome where
  id : Nat
  name : String
  description : String
  seat_rows : List SeatRow
deriving DecidableEq, Repr

/-- Model `ShowSession`: foreign keys are stored as ids, `show_begin`
is an abstract instant. -/
structure ShowSession where
  id : Nat
  astronomy_show : Nat
  planetarium_dome : Nat
  show_begin : Int
deriving DecidableEq, Repr

/-- Model `Reservation` (the `created_at` timestamp plays no role in any
claim and is omitted; `user` is the owning user id). -/
structure Reservation where
  id : Nat
  user : Nat
deriving DecidableEq, Repr

/-- Model `Ticket`: foreign keys as ids plus the (row, seat) pair. -/
structure Ticket where
  show_session : Nat
  reservation : Nat
  row : Nat
  seat : Nat
deriving DecidableEq, Repr

/-- The database state: one list of rows per table. -/
structure DBState where
  domes : List PlanetariumDome
  sessions : List ShowSession
  reservations : List Reservation
  tickets : List Ticket
deriving DecidableEq, Repr

/-- Models `PlanetariumDome.objects.get(id=...)`: first dome with the given id. -/
def findDome (st : DBState) (domeId : Nat) : Option PlanetariumDome :=
  st.domes.find? (fun d => d.id == domeId)

/-- Models `ShowSession.objects.get(id=...)` (primary key resolution). -/
def resolveSession (st : DBState) (sid : Nat) : Option ShowSession :=
  st.sessions.find? (fun s => s.id == sid)

/-- Models `SeatRow.objects.get(planetarium_dome=dome, row_number=n)`:
the unique constraint on (planetarium_dome_id, row_number) makes the
first match the only match. -/
def findSeatRow (dome : PlanetariumDome) (n : Nat) : Option SeatRow :=
  dome.seat_rows.find? (fun r => r.row_number == n)

/-- Models `PlanetariumDome.capacity` (models.py): sum of `seats_in_row` over
the related seat rows, folded exactly as the source loop accumulates. -/
def PlanetariumDome.capacity (d : PlanetariumDome) : Nat :=
  d.seat_rows.foldl (fun acc r => acc + r.seats_in_row) 0

/-- The message built by `Ticket.validate_seat` for an out-of-range seat. -/
def seatRangeMsg (seats_in_row seat : Nat) : String :=
  "seat must be in range [1, " ++ toString seats_in_row ++ "], not " ++ toString seat

/-- Models `Ticket.validate_seat` (models.py): look up the seat row of the dome
with the given row number (`SeatRow.objects.get`, raising
`SeatRow.DoesNotExist` when absent, modelled `notFound`), then require
`1 <= seat <= row.seats_in_row`, else raise the error with the seat
message.  The source passes the raised class as `error_to_raise`; every
caller in this repository passes a ValidationError class, so the
out-of-range branch is a `validationError`. -/
def Ticket.validate_seat (row_number seat : Nat) (dome : PlanetariumDome) :
    Except ApiError Unit :=
  match findSeatRow dome row_number with
  | none => .error .notFound
  | some row =>
      if 1 ≤ seat ∧ seat ≤ row.seats_in_row then .ok ()
      else .error (.validationError (seatRangeMsg row.seats_in_row seat))

/-- Input of the dome create/update serializer: name, description and
the supplied seat-row list. -/
structure DomeInput where
  name : String
  description : String
  seat_rows : List SeatRow
deriving DecidableEq, Repr

/-- Models `PlanetariumDomeSerializer.create` plus the serializer-level
`allow_empty=False` check on `seat_rows` (DRF rejects an empty list
before `create` runs) and the database unique constraint on
(planetarium_dome_id, row_number) (model Meta of `SeatRow`), which makes
an insert of a duplicated row number fail inside the transaction. -/
def domeCreateOp (st : DBState) (input : DomeInput) : Except ApiError DBState :=
  if input.seat_rows.isEmpty then
    .error (.validationError "This list may not be empty.")
  else if (input.seat_rows.map (fun r => r.row_number)).Nodup then
    .ok { st with
          domes := st.domes ++
            [{ id := st.domes.length + 1, name := input.name,
               description := input.description,
               seat_rows := input.seat_rows }] }
  else .error .integrityError

/-- The duplicated-row message of `PlanetariumDomeSerializer.update`. -/
def dupRowMsg (n : Nat) : String :=
  "Row " ++ toString n ++ " is specified multiple times."

/-- Models `seat_row.seats_in_row = ...; seat_row.save()`: overwrite the seat
count of the row returned by `SeatRow.objects.get`, which under the
unique constraint is the first (and only) row with that number. -/
def updateFirstRow (rows : List SeatRow) (n k : Nat) : List SeatRow :=
  match rows with
  | [] => []
  | q :: rest =>
      if q.row_number == n then { q with seats_in_row := k } :: rest
      else q :: updateFirstRow rest n k

/-- The try/except body of the update loop: `SeatRow.objects.get`
succeeds when some stored row carries the supplied number, and its
`seats_in_row` is overwritten; on `SeatRow.DoesNotExist` a new row is
inserted. -/
def applyRowData (rows : List SeatRow) (r : SeatRow) : List SeatRow :=
  if rows.any (fun q => q.row_number == r.row_number) then
    updateFirstRow rows r.row_number r.seats_in_row
  else rows ++ [r]

/-- The row loop of `PlanetariumDomeSerializer.update`: walk the supplied
rows keeping the list `seen` of row numbers already handled in this call;
a repeated number raises the ValidationError with `dupRowMsg`; otherwise
the stored row with that number gets its `seats_in_row` overwritten, or a
new row is inserted when none exists. -/
def domeUpdateRows (rows : List SeatRow) (seen : List Nat) :
    List SeatRow → Except ApiError (List SeatRow)
  | [] => .ok rows
  | r :: rest =>
      if seen.contains r.row_number then
        .error (.validationError (dupRowMsg r.row_number))
      else
        domeUpdateRows (applyRowData rows r) (seen ++ [r.row_number]) rest

/-- Models `PlanetariumDomeSerializer.update` (serializers.py): pops the
supplied seat rows and runs the row loop inside the transaction, then
returns the instance.  The popped `name` and `description` of the input
are never applied to the instance by the source, so the result keeps the
stored ones. -/
def PlanetariumDomeSerializer.update (dome : PlanetariumDome)
    (input : DomeInput) : Except ApiError PlanetariumDome :=
  match domeUpdateRows dome.seat_rows [] input.seat_rows with
  | .error e => .error e
  | .ok rows' => .ok { dome with seat_rows := rows' }

/-- The PUT endpoint on a dome: resolve the instance, run the serializer
update, store the returned instance back. -/
def domeUpdateOp (st : DBState) (domeId : Nat) (input : DomeInput) :
    Except ApiError DBState :=
  match findDome st domeId with
  | none => .error .notFound
  | some dome =>
      match PlanetariumDomeSerializer.update dome input with
      | .error e => .error e
      | .ok dome' =>
          .ok { st with
                domes := st.domes.map (fun d => if d.id == domeId then dome' else d) }

/-- Creating a show session (ShowSessionSerializer POST): the dome
foreign key must resolve. -/
def sessionCreateOp (st : DBState) (showId domeId : Nat) (begin_ : Int) :
    Except ApiError DBState :=
  match findDome st domeId with
  | none => .error .notFound
  | some _ =>
      .ok { st with
            sessions := st.sessions ++
              [{ id := st.sessions.length + 1, astronomy_show := showId,
                 planetarium_dome := domeId, show_begin := begin_ }] }

/-- Input of the show session serializer: the writable fields
astronomy_show, planetarium_dome and show_begin. -/
structure SessionInput where
  astronomy_show : Nat
  planetarium_dome : Nat
  show_begin : Int
deriving DecidableEq, Repr

/-- Updating a show session (ShowSessionSerializer PUT through
UpdateModelMixin): the session must resolve and the dome foreign key
must resolve, then every writable field of the session is overwritten,
with no re-validation of existing tickets against the new dome. -/
def sessionUpdateOp (st : DBState) (sid : Nat) (input : SessionInput) :
    Except ApiError DBState :=
  match resolveSession st sid with
  | none => .error .notFound
  | some _ =>
      match findDome st input.planetarium_dome with
      | none => .error .notFound
      | some _ =>
          .ok { st with
                sessions := st.sessions.map (fun s =>
                  if s.id == sid then
                    { s with astronomy_show := input.astronomy_show,
                             planetarium_dome := input.planetarium_dome,
                             show_begin := input.show_begin }
                  else s) }

/-- A requested ticket of a reservation request: session id plus the
(row, seat) pair. -/
structure TicketInput where
  show_session : Nat
  row : Nat
  seat : Nat
deriving DecidableEq, Repr

/-- Models `TicketSerializer.validate`: resolve the session (DRF related-field
resolution fails when the pk does not exist), reach its dome and run
`Ticket.validate_seat` as the pre-persistence check. -/
def TicketSerializer.validate (st : DBState) (t : TicketInput) :
    Except ApiError Unit :=
  match resolveSession st t.show_session with
  | none => .error .notFound
  | some sess =>
      match findDome st sess.planetarium_dome with
      | none => .error .notFound
      | some dome => Ticket.validate_seat t.row t.seat dome

/-- The DRF validation pass over the ticket list of a reservation
request, in the order supplied. -/
def validateTickets (st : DBState) : List TicketInput → Except ApiError Unit
  | [] => .ok ()
  | t :: ts =>
      match TicketSerializer.validate st t with
      | .error e => .error e
      | .ok _ => validateTickets st ts

/-- Whether a stored ticket occupies the same (show_session, row, seat)
triple as a requested one. -/
def sameSeatAs (t : TicketInput) (tk : Ticket) : Bool :=
  tk.show_session == t.show_session && tk.row == t.row && tk.seat == t.seat

/-- Models `Ticket.save` via `Ticket.objects.create` inside the reservation
transaction: `full_clean` runs `clean` (which re-runs
`Ticket.validate_seat` against the dome of the session) and then
`validate_unique`, which sees both the pre-existing tickets and the
tickets already inserted by this transaction (`acc`); a clash on
(show_session, row, seat) raises before the insert. -/
def Ticket.save (st : DBState) (acc : List Ticket) (resId : Nat)
    (t : TicketInput) : Except ApiError Ticket :=
  match resolveSession st t.show_session with
  | none => .error .notFound
  | some sess =>
      match findDome st sess.planetarium_dome with
      | none => .error .notFound
      | some dome =>
          match Ticket.validate_seat t.row t.seat dome with
          | .error e => .error e
          | .ok _ =>
              if st.tickets.any (sameSeatAs t) || acc.any (sameSeatAs t) then
                .error (.validationError
                  "The fields show_session, row, seat must make a unique set.")
              else
                .ok { show_session := t.show_session, reservation := resId,
                      row := t.row, seat := t.seat }

/-- The ticket loop of `ReservationSerializer.create`: insert each
requested ticket in order, accumulating the rows inserted so far. -/
def createTickets (st : DBState) (resId : Nat) (acc : List Ticket) :
    List TicketInput → Except ApiError (List Ticket)
  | [] => .ok acc
  | t :: ts =>
      match Ticket.save st acc resId t with
      | .error e => .error e
      | .ok tk => createTickets st resId (acc ++ [tk]) ts

/-- Models `ReservationSerializer.create` together with the DRF validation that
precedes it (`allow_empty=False` on `tickets` and
`TicketSerializer.validate` per ticket): inside one transaction the
reservation row is created and then every ticket is inserted through
`Ticket.save`; any failure rolls the whole transaction back. -/
def ReservationSerializer.create (st : DBState) (user : Nat)
    (tickets_data : List TicketInput) : Except ApiError DBState :=
  if tickets_data.isEmpty then
    .error (.validationError "This list may not be empty.")
  else
    match validateTickets st tickets_data with
    | .error e => .error e
    | .ok _ =>
        let resId := st.reservations.length + 1
        match createTickets st resId [] tickets_data with
        | .error e => .error e
        | .ok tks =>
            .ok { st with
                  reservations := st.reservations ++ [{ id := resId, user := user }],
                  tickets := st.tickets ++ tks }

/-- Models `with transaction.atomic()`: the observable state after an operation
is the returned state on success and the unchanged prior state on any
raised error (full rollback). -/
def commitD (st : DBState) (r : Except ApiError DBState) : DBState :=
  match r with
  | .ok st' => st'
  | .error _ => st

/-- Number of tickets of a session: `show_session.tickets.count()`. -/
def ticketCount (st : DBState) (sid : Nat) : Nat :=
  (st.tickets.filter (fun tk => tk.show_session == sid)).length

/-- Models `ShowSessionListSerializer.get_available_seats`: dome capacity minus
sold tickets, a Python int subtraction (may be negative, hence Int).
The dome of a session always exists under foreign-key integrity; a
dangling dome id contributes capacity 0. -/
def ShowSessionListSerializer.get_available_seats (st : DBState)
    (s : ShowSession) : Int :=
  let all_places : Nat :=
    match findDome st s.planetarium_dome with
    | some d => d.capacity
    | none => 0
  let sold_places : Nat := ticketCount st s.id
  (all_places : Int) - (sold_places : Int)

/-- Ordered insertion by `show_begin`, implementing the SQL ORDER BY of
`ShowSession.Meta.ordering` for a queryset filtered to one show (the
second ordering key `astronomy_show` is constant there). -/
def insertByBegin (s : ShowSession) : List ShowSession → List ShowSession
  | [] => [s]
  | t :: ts =>
      if s.show_begin ≤ t.show_begin then s :: t :: ts
      else t :: insertByBegin s ts

/-- Sort sessions ascending by `show_begin`. -/
def sortByBegin : List ShowSession → List ShowSession
  | [] => []
  | s :: ss => insertByBegin s (sortByBegin ss)

/-- Models `AstronomyShowDetailSerializer.get_future_show_sessions`: the
sessions of the show with `show_begin >= now` (the source evaluates
`now` with the fixed zone Europe/Berlin; here `now` is the resulting
abstract instant), returned in the model ordering and sliced to the
first 5. -/
def get_future_show_sessions (st : DBState) (showId : Nat) (now : Int) :
    List ShowSession :=
  (sortByBegin (st.sessions.filter
    (fun s => now ≤ s.show_begin && s.astronomy_show == showId))).take 5

/-- The write operations of the repository that touch domes, sessions,
reservations or tickets: dome create and update, session create and
update, reservation create.  Reservations and tickets expose no update
or delete endpoint, and domes and sessions expose no delete. -/
inductive Op where
  | createDome : DomeInput → Op
  | updateDome : Nat → DomeInput → Op
  | createSession : Nat → Nat → Int → Op
  | updateSession : Nat → SessionInput → Op
  | createReservation : Nat → List TicketInput → Op
deriving DecidableEq, Repr

/-- One committed request: run the operation and roll back on error. -/
def step (st : DBState) : Op → DBState
  | .createDome input => commitD st (domeCreateOp st input)
  | .updateDome domeId input => commitD st (domeUpdateOp st domeId input)
  | .createSession showId domeId b => commitD st (sessionCreateOp st showId domeId b)
  | .updateSession sid input => commitD st (sessionUpdateOp st sid input)
  | .createReservation user td => commitD st (ReservationSerializer.create st user td)

/-- The empty database. -/
def initState : DBState :=
  { domes := [], sessions := [], reservations := [], tickets := [] }

/-- Run a sequence of requests from the empty database. -/
def runOps (ops : List Op) : DBState :=
  ops.foldl step initState

/-- A state of the system reachable by some request sequence. -/
def Reachable (st : DBState) : Prop :=
  ∃ ops : List Op, runOps ops = st

/-- Whether a request is a dome update. -/
def Op.isDomeUpdate : Op → Bool
  | .updateDome _ _ => true
  | _ => false

/-- Whether a request is one of the two update operations that can
change the seat layout seen by already-sold tickets: a dome update
(shrinking a row) or a session update (re-pointing the session to
another dome). -/
def Op.isUpdate : Op → Bool
  | .updateDome _ _ => true
  | .updateSession _ _ => true
  | _ => false

/-- A state reachable without any dome update and without any session
update. -/
def ReachableNoUpdate (st : DBState) : Prop :=
  ∃ ops : List Op, (∀ op ∈ ops, op.isUpdate = false) ∧ runOps ops = st

/-! ### Helper lemmas -/

/-- A successful `find?` is preserved by appending more rows on the right. -/
theorem find?_append_left {α : Type} {p : α → Bool} :
    ∀ {l : List α} {x : α} (l' : List α), l.find? p = some x → (l ++ l').find? p = some x := by
  intro l
  induction l with
  | nil => intro x l' h; simp [List.find?] at h
  | cons a t ih =>
      intro x l' h
      by_cases hp : p a = true
      · rw [List.find?_cons_of_pos _ hp] at h
        rw [List.cons_append, List.find?_cons_of_pos _ hp]
        exact h
      · rw [List.find?_cons_of_neg _ hp] at h
        rw [List.cons_append, List.find?_cons_of_neg _ hp]
        exact ih l' h

/-- Membership in an ordered insertion. -/
theorem mem_insertByBegin {x s : ShowSession} :
    ∀ {l : List ShowSession}, x ∈ insertByBegin s l ↔ x = s ∨ x ∈ l := by
  intro l
  induction l with
  | nil => simp [insertByBegin]
  | cons t ts ih =>
      by_cases hle : s.show_begin ≤ t.show_begin
      · simp [insertByBegin, hle]
      · simp only [insertByBegin, if_neg hle, List.mem_cons, ih]
        tauto

/-- Ordered insertion preserves sortedness by `show_begin`. -/
theorem pairwise_insertByBegin {s : ShowSession} :
    ∀ {l : List ShowSession},
      l.Pairwise (fun a b => a.show_begin ≤ b.show_begin) →
      (insertByBegin s l).Pairwise (fun a b => a.show_begin ≤ b.show_begin) := by
  intro l
  induction l with
  | nil => intro _; simp [insertByBegin]
  | cons t ts ih =>
      intro h
      rcases List.pairwise_cons.mp h with ⟨ht, hts⟩
      by_cases hle : s.show_begin ≤ t.show_begin
      · simp only [insertByBegin, if_pos hle]
        refine List.pairwise_cons.mpr ⟨?_, h⟩
        intro b hb
        rcases List.mem_cons.mp hb with hb | hb
        · subst hb; exact hle
        · exact le_trans hle (ht b hb)
      · simp only [insertByBegin, if_neg hle]
        refine List.pairwise_cons.mpr ⟨?_, ih hts⟩
        intro b hb
        rcases mem_insertByBegin.mp hb with hb | hb
        · subst hb
          exact le_of_lt (lt_of_not_le hle)
        · exact ht b hb

/-- Sorting by `show_begin` yields a sorted list. -/
theorem pairwise_sortByBegin :
    ∀ (l : List ShowSession),
      (sortByBegin l).Pairwise (fun a b => a.show_begin ≤ b.show_begin) := by
  intro l
  induction l with
  | nil => simp [sortByBegin]
  | cons s ss ih => exact pairwise_insertByBegin ih

/-- Sorting by `show_begin` keeps exactly the original members. -/
theorem mem_sortByBegin {x : ShowSession} :
    ∀ {l : List ShowSession}, x ∈ sortByBegin l ↔ x ∈ l := by
  intro l
  induction l with
  | nil => simp [sortByBegin]
  | cons s ss ih =>
      simp only [sortByBegin, mem_insertByBegin, ih, List.mem_cons]

/-! ### Claims C2, C3 (seat validation) -/

/-- Claim C2: for a dome whose row r has seats_in_row = K, validating
seat N on row r succeeds iff 1 <= N <= K, and when N is out of that
range it fails with a ValidationError whose message is exactly
"seat must be in range [1, K], not N". -/
theorem C2_seat_range (dome : PlanetariumDome) (rn seat K : Nat) (r : SeatRow)
    (hfind : findSeatRow dome rn = some r) (hK : r.seats_in_row = K) :
    (Ticket.validate_seat rn seat dome = .ok () ↔ 1 ≤ seat ∧ seat ≤ K)
    ∧ (¬ (1 ≤ seat ∧ seat ≤ K) →
        Ticket.validate_seat rn seat dome =
          .error (.validationError (seatRangeMsg K seat))) := by
  subst hK
  unfold Ticket.validate_seat
  rw [hfind]
  by_cases hc : 1 ≤ seat ∧ seat ≤ r.seats_in_row
  · simp [if_pos hc, hc]
  · simp [if_neg hc, hc]

/-- Witness for C2 at the spec example: the dome row 1 has 5 seats and
seat 6 is rejected with the exact message. -/
theorem C2_seat_range_witness :
    findSeatRow { id := 1, name := "Sample dome", description := "",
                  seat_rows := [{ row_number := 1, seats_in_row := 5 }] } 1 =
      some { row_number := 1, seats_in_row := 5 }
    ∧ Ticket.validate_seat 1 6
        { id := 1, name := "Sample dome", description := "",
          seat_rows := [{ row_number := 1, seats_in_row := 5 }] } =
      .error (.validationError "seat must be in range [1, 5], not 6") :=
  ⟨rfl,
    (C2_seat_range
      { id := 1, name := "Sample dome", description := "",
        seat_rows := [{ row_number := 1, seats_in_row := 5 }] }
      1 6 5 { row_number := 1, seats_in_row := 5 } rfl rfl).2 (by decide)⟩

/-- Claim C3: when no seat row of the dome has the requested row number,
seat validation fails with the object-missing error, for every seat. -/
theorem C3_missing_row (dome : PlanetariumDome) (rn seat : Nat)
    (h : findSeatRow dome rn = none) :
    Ticket.validate_seat rn seat dome = .error .notFound := by
  unfold Ticket.validate_seat
  rw [h]

/-- Witness for C3: the sample dome has only row 1, so row 2 is rejected. -/
theorem C3_missing_row_witness :
    findSeatRow { id := 1, name := "Sample dome", description := "",
                  seat_rows := [{ row_number := 1, seats_in_row := 5 }] } 2 = none
    ∧ Ticket.validate_seat 2 3
        { id := 1, name := "Sample dome", description := "",
          seat_rows := [{ row_number := 1, seats_in_row := 5 }] } =
      .error .notFound :=
  ⟨rfl,
    C3_missing_row
      { id := 1, name := "Sample dome", description := "",
        seat_rows := [{ row_number := 1, seats_in_row := 5 }] } 2 3 rfl⟩

/-! ### Claim C7 (empty row list on dome create) -/

/-- Claim C7: creating a dome with an empty seat-row list always fails
with a ValidationError, and the committed state is unchanged, so no dome
and no seat row is persisted. -/
theorem C7_empty_rows_rejected (st : DBState) (name description : String) :
    domeCreateOp st { name := name, description := description, seat_rows := [] } =
      .error (.validationError "This list may not be empty.")
    ∧ commitD st
        (domeCreateOp st { name := name, description := description, seat_rows := [] }) = st :=
  ⟨rfl, rfl⟩

/-! ### Claim C8 (future sessions of a show) -/

/-- Claim C8: for every state, show and instant `now` (the source fixes
the zone Europe/Berlin when reading the clock), the future-session list
has at most 5 sessions, each belonging to the show with
show_begin >= now, sorted ascending by show_begin. -/
theorem C8_future_sessions (st : DBState) (showId : Nat) (now : Int) :
    (get_future_show_sessions st showId now).length ≤ 5
    ∧ (∀ s ∈ get_future_show_sessions st showId now,
        s.astronomy_show = showId ∧ now ≤ s.show_begin)
    ∧ (get_future_show_sessions st showId now).Pairwise
        (fun a b => a.show_begin ≤ b.show_begin) := by
  unfold get_future_show_sessions
  refine ⟨?_, ?_, ?_⟩
  · rw [List.length_take]
    exact min_le_left _ _
  · intro s hs
    have hmem := List.mem_of_mem_take hs
    have hmem2 := mem_sortByBegin.mp hmem
    have hpred := List.of_mem_filter hmem2
    have h1 : (decide (now ≤ s.show_begin) && (s.astronomy_show == showId)) = true := hpred
    rcases (Bool.and_eq_true _ _).mp h1 with ⟨ha, hb⟩
    exact ⟨eq_of_beq hb, of_decide_eq_true ha⟩
  · exact (pairwise_sortByBegin _).sublist (List.take_sublist _ _)

/-! ### Dome update lemmas -/

/-- The `contains` check on a list of numbers is membership. -/
theorem contains_iff_mem_nat {l : List Nat} {n : Nat} :
    l.contains n = true ↔ n ∈ l := by
  rw [List.contains_iff_exists_mem_beq]
  constructor
  · rintro ⟨m, hm, hbeq⟩
    rw [eq_of_beq hbeq]
    exact hm
  · intro hm
    exact ⟨n, hm, by simp⟩

/-- Two seat rows agreeing on both fields are equal. -/
theorem SeatRow.ext_fields {a b : SeatRow}
    (h1 : a.row_number = b.row_number) (h2 : a.seats_in_row = b.seats_in_row) :
    a = b := by
  cases a; cases b
  simp only at h1 h2
  rw [h1, h2]

/-- A stored row with a different number survives `updateFirstRow`
unchanged. -/
theorem mem_updateFirstRow_of_ne :
    ∀ {rows : List SeatRow} {q : SeatRow} {n k : Nat},
      q ∈ rows → ¬ q.row_number = n → q ∈ updateFirstRow rows n k := by
  intro rows
  induction rows with
  | nil => intro q n k h _; simp at h
  | cons p rest ih =>
      intro q n k hmem hne
      rcases List.mem_cons.mp hmem with hq | hq
      · subst hq
        have hb : (q.row_number == n) = false := by
          simp [hne]
        simp only [updateFirstRow, hb]
        simp
      · by_cases hp : (p.row_number == n) = true
        · simp only [updateFirstRow, hp, if_true]
          exact List.mem_cons_of_mem _ hq
        · have hb : (p.row_number == n) = false := by
            simpa using hp
          simp only [updateFirstRow, hb, Bool.false_eq_true, if_false]
          exact List.mem_cons_of_mem _ (ih hq hne)

/-- When some stored row carries the number, `updateFirstRow` produces a
row with that number and the new seat count. -/
theorem updateFirstRow_hit :
    ∀ {rows : List SeatRow} {n k : Nat},
      (∃ p ∈ rows, p.row_number = n) →
      ∃ q ∈ updateFirstRow rows n k, q.row_number = n ∧ q.seats_in_row = k := by
  intro rows
  induction rows with
  | nil => rintro n k ⟨p, hp, _⟩; simp at hp
  | cons p rest ih =>
      rintro n k ⟨p0, hp0, hnum⟩
      by_cases hp : (p.row_number == n) = true
      · refine ⟨{ p with seats_in_row := k }, ?_, eq_of_beq hp, rfl⟩
        simp only [updateFirstRow, hp, if_true]
        exact List.mem_cons_self _ _
      · have hb : (p.row_number == n) = false := by simpa using hp
        rcases List.mem_cons.mp hp0 with hq | hq
        · exact absurd hnum (by subst hq; simpa using hp)
        · obtain ⟨q, hqmem, hqprop⟩ := ih ⟨p0, hq, hnum⟩
          refine ⟨q, ?_, hqprop⟩
          simp only [updateFirstRow, hb, Bool.false_eq_true, if_false]
          exact List.mem_cons_of_mem _ hqmem

/-- The function `updateFirstRow` never loses a row number. -/
theorem updateFirstRow_numbers :
    ∀ {rows : List SeatRow} {n k : Nat} {q : SeatRow},
      q ∈ rows → ∃ q' ∈ updateFirstRow rows n k, q'.row_number = q.row_number := by
  intro rows
  induction rows with
  | nil => intro n k q h; simp at h
  | cons p rest ih =>
      intro n k q hmem
      by_cases hp : (p.row_number == n) = true
      · rcases List.mem_cons.mp hmem with hq | hq
        · subst hq
          exact ⟨{ q with seats_in_row := k }, by
            simp only [updateFirstRow, hp, if_true]; exact List.mem_cons_self _ _, rfl⟩
        · exact ⟨q, by
            simp only [updateFirstRow, hp, if_true]
            exact List.mem_cons_of_mem _ hq, rfl⟩
      · have hb : (p.row_number == n) = false := by simpa using hp
        rcases List.mem_cons.mp hmem with hq | hq
        · subst hq
          exact ⟨q, by
            simp only [updateFirstRow, hb, Bool.false_eq_true, if_false]
            exact List.mem_cons_self _ _, rfl⟩
        · obtain ⟨q', hq'mem, hq'num⟩ := ih hq
          exact ⟨q', by
            simp only [updateFirstRow, hb, Bool.false_eq_true, if_false]
            exact List.mem_cons_of_mem _ hq'mem, hq'num⟩

/-- A stored row whose number differs from the supplied one survives one
loop iteration unchanged. -/
theorem mem_applyRowData_of_ne {rows : List SeatRow} {q r : SeatRow}
    (hmem : q ∈ rows) (hne : ¬ q.row_number = r.row_number) :
    q ∈ applyRowData rows r := by
  unfold applyRowData
  by_cases hany : (rows.any (fun p => p.row_number == r.row_number)) = true
  · rw [if_pos hany]
    exact mem_updateFirstRow_of_ne hmem hne
  · rw [if_neg hany]
    exact List.mem_append_left _ hmem

/-- One loop iteration stores a row with the supplied number and seat
count (by overwrite or by insert). -/
theorem applyRowData_hit {rows : List SeatRow} (r : SeatRow) :
    ∃ q ∈ applyRowData rows r,
      q.row_number = r.row_number ∧ q.seats_in_row = r.seats_in_row := by
  unfold applyRowData
  by_cases hany : (rows.any (fun p => p.row_number == r.row_number)) = true
  · rw [if_pos hany]
    obtain ⟨p, hpmem, hbeq⟩ := List.any_eq_true.mp hany
    exact updateFirstRow_hit ⟨p, hpmem, eq_of_beq hbeq⟩
  · rw [if_neg hany]
    exact ⟨r, List.mem_append_right _ (List.mem_singleton.mpr rfl), rfl, rfl⟩

/-- One loop iteration never loses a row number. -/
theorem applyRowData_numbers {rows : List SeatRow} {q : SeatRow} (r : SeatRow)
    (hmem : q ∈ rows) :
    ∃ q' ∈ applyRowData rows r, q'.row_number = q.row_number := by
  unfold applyRowData
  by_cases hany : (rows.any (fun p => p.row_number == r.row_number)) = true
  · rw [if_pos hany]
    exact updateFirstRow_numbers hmem
  · rw [if_neg hany]
    exact ⟨q, List.mem_append_left _ hmem, rfl⟩

/-- When the supplied data (together with the already seen numbers)
repeats a row number, the update loop raises the duplicated-row
ValidationError for some supplied number. -/
theorem domeUpdateRows_dup :
    ∀ (data rows : List SeatRow) (seen : List Nat),
      seen.Nodup →
      ¬ (seen ++ data.map (fun r => r.row_number)).Nodup →
      ∃ n, n ∈ seen ++ data.map (fun r => r.row_number)
        ∧ domeUpdateRows rows seen data = .error (.validationError (dupRowMsg n)) := by
  intro data
  induction data with
  | nil =>
      intro rows seen hseen hdup
      rw [List.map_nil, List.append_nil] at hdup
      exact absurd hseen hdup
  | cons r rest ih =>
      intro rows seen hseen hdup
      by_cases hc : (seen.contains r.row_number) = true
      · refine ⟨r.row_number, List.mem_append_right _ ?_, ?_⟩
        · simp
        · simp only [domeUpdateRows, hc, if_true]
      · have hnotmem : r.row_number ∉ seen := fun hm => hc (contains_iff_mem_nat.mpr hm)
        have hseen' : (seen ++ [r.row_number]).Nodup := by
          rw [List.nodup_append]
          exact ⟨hseen, List.nodup_singleton _, by
            intro a ha hb
            rw [List.mem_singleton] at hb
            exact hnotmem (hb ▸ ha)⟩
        have hdup' : ¬ ((seen ++ [r.row_number]) ++ rest.map (fun q => q.row_number)).Nodup := by
          rw [List.append_assoc, List.singleton_append]
          rw [List.map_cons] at hdup
          exact hdup
        obtain ⟨n, hn, heq⟩ := ih (applyRowData rows r) (seen ++ [r.row_number]) hseen' hdup'
        refine ⟨n, ?_, ?_⟩
        · rw [List.append_assoc, List.singleton_append] at hn
          rw [List.map_cons]
          exact hn
        · simp only [domeUpdateRows, hc, Bool.false_eq_true, if_false]
          exact heq

/-- When the update loop succeeds, none of the numbers already seen
occurs in the remaining supplied data. -/
theorem domeUpdateRows_ok_seen_disjoint :
    ∀ (data rows : List SeatRow) (seen : List Nat) (res : List SeatRow),
      domeUpdateRows rows seen data = .ok res →
      ∀ n ∈ seen, n ∉ data.map (fun r => r.row_number) := by
  intro data
  induction data with
  | nil => intro rows seen res _ n _; simp
  | cons r rest ih =>
      intro rows seen res h n hn
      by_cases hc : (seen.contains r.row_number) = true
      · rw [domeUpdateRows, if_pos hc] at h
        exact absurd h (by simp)
      · rw [domeUpdateRows, if_neg hc] at h
        rw [List.map_cons]
        intro hmem
        rcases List.mem_cons.mp hmem with heq | hmem2
        · exact hc (contains_iff_mem_nat.mpr (heq ▸ hn))
        · exact ih _ _ _ h n (List.mem_append_left _ hn) hmem2

/-- When the update loop succeeds, a stored row whose number does not
occur in the supplied data survives unchanged. -/
theorem domeUpdateRows_ok_untouched :
    ∀ (data rows : List SeatRow) (seen : List Nat) (res : List SeatRow),
      domeUpdateRows rows seen data = .ok res →
      ∀ q ∈ rows, q.row_number ∉ data.map (fun r => r.row_number) → q ∈ res := by
  intro data
  induction data with
  | nil =>
      intro rows seen res h q hq _
      rw [domeUpdateRows] at h
      exact (Except.ok.inj h) ▸ hq
  | cons r rest ih =>
      intro rows seen res h q hq hnot
      by_cases hc : (seen.contains r.row_number) = true
      · rw [domeUpdateRows, if_pos hc] at h
        exact absurd h (by simp)
      · rw [domeUpdateRows, if_neg hc] at h
        rw [List.map_cons] at hnot
        have hne : ¬ q.row_number = r.row_number := by
          intro he
          exact hnot (by rw [he]; exact List.mem_cons_self _ _)
        exact ih _ _ _ h q (mem_applyRowData_of_ne hq hne)
          (fun hm => hnot (List.mem_cons_of_mem _ hm))

/-- When the update loop succeeds, every stored row number still occurs
in the resulting rows (no row is ever deleted). -/
theorem domeUpdateRows_ok_numbers :
    ∀ (data rows : List SeatRow) (seen : List Nat) (res : List SeatRow),
      domeUpdateRows rows seen data = .ok res →
      ∀ q ∈ rows, ∃ q' ∈ res, q'.row_number = q.row_number := by
  intro data
  induction data with
  | nil =>
      intro rows seen res h q hq
      rw [domeUpdateRows] at h
      exact ⟨q, (Except.ok.inj h) ▸ hq, rfl⟩
  | cons r rest ih =>
      intro rows seen res h q hq
      by_cases hc : (seen.contains r.row_number) = true
      · rw [domeUpdateRows, if_pos hc] at h
        exact absurd h (by simp)
      · rw [domeUpdateRows, if_neg hc] at h
        obtain ⟨q1, hq1mem, hq1num⟩ := applyRowData_numbers r hq
        obtain ⟨q', hq'mem, hq'num⟩ := ih _ _ _ h q1 hq1mem
        exact ⟨q', hq'mem, hq'num.trans hq1num⟩

/-- When the update loop succeeds, every supplied row ends up stored
with exactly the supplied seat count. -/
theorem domeUpdateRows_ok_applied :
    ∀ (data rows : List SeatRow) (seen : List Nat) (res : List SeatRow),
      domeUpdateRows rows seen data = .ok res →
      ∀ r ∈ data, ∃ q ∈ res,
        q.row_number = r.row_number ∧ q.seats_in_row = r.seats_in_row := by
  intro data
  induction data with
  | nil => intro rows seen res _ r hr; simp at hr
  | cons r0 rest ih =>
      intro rows seen res h r hr
      by_cases hc : (seen.contains r0.row_number) = true
      · rw [domeUpdateRows, if_pos hc] at h
        exact absurd h (by simp)
      · rw [domeUpdateRows, if_neg hc] at h
        rcases List.mem_cons.mp hr with hreq | hrmem
        · subst hreq
          obtain ⟨q, hqmem, hqnum, hqseats⟩ := @applyRowData_hit rows r
          have hnotrest : q.row_number ∉ rest.map (fun p => p.row_number) := by
            have := domeUpdateRows_ok_seen_disjoint rest _ _ _ h r.row_number
              (List.mem_append_right _ (List.mem_singleton.mpr rfl))
            rw [hqnum]
            exact this
          have := domeUpdateRows_ok_untouched rest _ _ _ h q hqmem hnotrest
          exact ⟨q, this, hqnum, hqseats⟩
        · exact ih _ _ _ h r hrmem

/-! ### Claim C9 (dome update frame) -/

/-- Claim C9: for every successful dome update, each supplied row ends up
stored exactly as supplied (an existing row number has just its
seats_in_row overwritten, a new number is inserted — a seat row has no
other fields), every stored row whose number is absent from the supplied
list is left completely unchanged, and no stored row number is ever
deleted by the update. -/
theorem C9_update_frame (dome : PlanetariumDome) (input : DomeInput)
    (dome' : PlanetariumDome)
    (hok : PlanetariumDomeSerializer.update dome input = .ok dome') :
    (∀ r ∈ input.seat_rows, r ∈ dome'.seat_rows)
    ∧ (∀ q ∈ dome.seat_rows,
        q.row_number ∉ input.seat_rows.map (fun r => r.row_number) →
        q ∈ dome'.seat_rows)
    ∧ (∀ q ∈ dome.seat_rows, ∃ q' ∈ dome'.seat_rows, q'.row_number = q.row_number) := by
  unfold PlanetariumDomeSerializer.update at hok
  cases hrows : domeUpdateRows dome.seat_rows [] input.seat_rows with
  | error e => rw [hrows] at hok; exact absurd hok (by simp)
  | ok rows' =>
      rw [hrows] at hok
      have hdome' : dome' = { dome with seat_rows := rows' } := (Except.ok.inj hok).symm
      subst hdome'
      refine ⟨?_, ?_, ?_⟩
      · intro r hr
        obtain ⟨q, hqmem, hqnum, hqseats⟩ :=
          domeUpdateRows_ok_applied input.seat_rows _ _ _ hrows r hr
        exact (SeatRow.ext_fields hqnum hqseats) ▸ hqmem
      · intro q hq hnot
        exact domeUpdateRows_ok_untouched input.seat_rows _ _ _ hrows q hq hnot
      · intro q hq
        exact domeUpdateRows_ok_numbers input.seat_rows _ _ _ hrows q hq

/-- Witness for C9 on a concrete dome: rows (1,5) and (2,3), update with
rows (2,7) and (3,4): the supplied rows are stored, row (1,5) survives
unchanged, and number 2 is still present. -/
theorem C9_update_frame_witness :
    PlanetariumDomeSerializer.update
      { id := 1, name := "d", description := "", seat_rows := [⟨1, 5⟩, ⟨2, 3⟩] }
      { name := "d", description := "", seat_rows := [⟨2, 7⟩, ⟨3, 4⟩] } =
      .ok { id := 1, name := "d", description := "",
            seat_rows := [⟨1, 5⟩, ⟨2, 7⟩, ⟨3, 4⟩] }
    ∧ (⟨2, 7⟩ : SeatRow) ∈ [(⟨1, 5⟩ : SeatRow), ⟨2, 7⟩, ⟨3, 4⟩]
    ∧ (⟨1, 5⟩ : SeatRow) ∈ [(⟨1, 5⟩ : SeatRow), ⟨2, 7⟩, ⟨3, 4⟩] :=
  ⟨rfl,
    (C9_update_frame
      { id := 1, name := "d", description := "", seat_rows := [⟨1, 5⟩, ⟨2, 3⟩] }
      { name := "d", description := "", seat_rows := [⟨2, 7⟩, ⟨3, 4⟩] }
      { id := 1, name := "d", description := "",
        seat_rows := [⟨1, 5⟩, ⟨2, 7⟩, ⟨3, 4⟩] } rfl).1 ⟨2, 7⟩ (by decide),
    (C9_update_frame
      { id := 1, name := "d", description := "", seat_rows := [⟨1, 5⟩, ⟨2, 3⟩] }
      { name := "d", description := "", seat_rows := [⟨2, 7⟩, ⟨3, 4⟩] }
      { id := 1, name := "d", description := "",
        seat_rows := [⟨1, 5⟩, ⟨2, 7⟩, ⟨3, 4⟩] } rfl).2.1 ⟨1, 5⟩ (by decide) (by decide)⟩

/-! ### Claim C5 (dome update and name/description) -/

/-- The stored dome before the C5 update call: one dome named
"Sample dome" with row (1,5), as the repo test builds it. -/
def stC5 : DBState :=
  runOps [.createDome
    { name := "Sample dome", description := "Old description",
      seat_rows := [⟨1, 5⟩] }]

/-- The C5 update payload of the repo test: new name and description and
row list [(1,1)]. -/
def inputC5 : DomeInput :=
  { name := "Zeiss hybrid dome", description := "Sample description",
    seat_rows := [⟨1, 1⟩] }

/-- Claim C5 is violated by the code: the PUT succeeds and updates the
rows, but the stored name and description are still the old ones because
`PlanetariumDomeSerializer.update` discards the supplied values. -/
theorem C5_update_drops_name_and_description :
    ∃ st', domeUpdateOp stC5 1 inputC5 = .ok st'
      ∧ findDome st' 1 =
          some { id := 1, name := "Sample dome",
                 description := "Old description",
                 seat_rows := [⟨1, 1⟩] }
      ∧ ¬ "Sample dome" = inputC5.name
      ∧ ¬ "Old description" = inputC5.description :=
  ⟨_, rfl, rfl, by decide, by decide⟩

/-! ### Claim C6 (duplicated row number on dome update) -/

/-- The stored dome before the C6 update call. -/
def stC6 : DBState :=
  runOps [.createDome
    { name := "Sample dome", description := "", seat_rows := [⟨1, 5⟩] }]

/-- The C6 update payload: row number 1 supplied twice. -/
def inputC6 : DomeInput :=
  { name := "New name", description := "New description",
    seat_rows := [⟨1, 1⟩, ⟨1, 2⟩] }

/-- Counterexample to C6 as stated: the raised ValidationError carries
the message "Row 1 is specified multiple times." with a trailing period,
not the claimed message "Row 1 is specified multiple times". -/
theorem C6_message_counterexample :
    domeUpdateOp stC6 1 inputC6 =
      .error (.validationError "Row 1 is specified multiple times.")
    ∧ ¬ domeUpdateOp stC6 1 inputC6 =
      .error (.validationError "Row 1 is specified multiple times") :=
  ⟨rfl, by
    intro h
    have h1 : ApiError.validationError "Row 1 is specified multiple times." =
        ApiError.validationError "Row 1 is specified multiple times" :=
      Except.error.inj h
    have h2 := ApiError.validationError.inj h1
    exact absurd h2 (by decide)⟩

/-- Claim C6 as amended (the message ends with a period): a dome update
whose supplied row list repeats a row number fails with the
ValidationError "Row {n} is specified multiple times." for a repeated
supplied number n, and the committed state is exactly the state before
the call. -/
theorem C6_duplicate_row_update_rejected (st : DBState) (domeId : Nat)
    (dome : PlanetariumDome) (input : DomeInput)
    (hdome : findDome st domeId = some dome)
    (hdup : ¬ (input.seat_rows.map (fun r => r.row_number)).Nodup) :
    (∃ n, n ∈ input.seat_rows.map (fun r => r.row_number)
       ∧ domeUpdateOp st domeId input = .error (.validationError (dupRowMsg n)))
    ∧ commitD st (domeUpdateOp st domeId input) = st := by
  obtain ⟨n, hn, heq⟩ := domeUpdateRows_dup input.seat_rows dome.seat_rows []
    List.nodup_nil (by simpa using hdup)
  have hop : domeUpdateOp st domeId input = .error (.validationError (dupRowMsg n)) := by
    unfold domeUpdateOp PlanetariumDomeSerializer.update
    simp only [hdome]
    rw [heq]
  refine ⟨⟨n, by simpa using hn, hop⟩, ?_⟩
  rw [hop]
  rfl

/-- Witness for the amended C6 at the concrete duplicated request. -/
theorem C6_duplicate_row_update_rejected_witness :
    ((∃ n, n ∈ inputC6.seat_rows.map (fun r => r.row_number)
        ∧ domeUpdateOp stC6 1 inputC6 = .error (.validationError (dupRowMsg n)))
      ∧ commitD stC6 (domeUpdateOp stC6 1 inputC6) = stC6) :=
  C6_duplicate_row_update_rejected stC6 1
    { id := 1, name := "Sample dome", description := "", seat_rows := [⟨1, 5⟩] }
    inputC6 rfl (by decide)

/-! ### Reservation lemmas -/

/-- Inversion of a successful seat validation. -/
theorem validate_seat_ok {rn seat : Nat} {dome : PlanetariumDome}
    (h : Ticket.validate_seat rn seat dome = .ok ()) :
    ∃ r, findSeatRow dome rn = some r ∧ 1 ≤ seat ∧ seat ≤ r.seats_in_row := by
  unfold Ticket.validate_seat at h
  cases hf : findSeatRow dome rn with
  | none => rw [hf] at h; exact absurd h (by simp)
  | some r =>
      rw [hf] at h
      dsimp only at h
      by_cases hc : 1 ≤ seat ∧ seat ≤ r.seats_in_row
      · exact ⟨r, rfl, hc⟩
      · rw [if_neg hc] at h; exact absurd h (by simp)

/-- Inversion of a successful `Ticket.save`: the session and dome
resolve, the seat is in range, the triple clashes with no pre-existing
ticket and no ticket of the running transaction, and the inserted row is
built from the request. -/
theorem Ticket.save_ok {st : DBState} {acc : List Ticket} {resId : Nat}
    {t : TicketInput} {tk : Ticket}
    (h : Ticket.save st acc resId t = .ok tk) :
    (∃ sess, resolveSession st t.show_session = some sess
      ∧ ∃ dome, findDome st sess.planetarium_dome = some dome
      ∧ ∃ r, findSeatRow dome t.row = some r ∧ 1 ≤ t.seat ∧ t.seat ≤ r.seats_in_row)
    ∧ st.tickets.any (sameSeatAs t) = false
    ∧ acc.any (sameSeatAs t) = false
    ∧ tk = { show_session := t.show_session, reservation := resId,
             row := t.row, seat := t.seat } := by
  unfold Ticket.save at h
  cases hses : resolveSession st t.show_session with
  | none => rw [hses] at h; exact absurd h (by simp)
  | some sess =>
      rw [hses] at h
      dsimp only at h
      cases hdome : findDome st sess.planetarium_dome with
      | none => rw [hdome] at h; exact absurd h (by simp)
      | some dome =>
          rw [hdome] at h
          dsimp only at h
          cases hval : Ticket.validate_seat t.row t.seat dome with
          | error e => rw [hval] at h; exact absurd h (by simp)
          | ok u =>
              rw [hval] at h
              dsimp only at h
              by_cases hclash :
                  (st.tickets.any (sameSeatAs t) || acc.any (sameSeatAs t)) = true
              · rw [if_pos hclash] at h; exact absurd h (by simp)
              · rw [if_neg hclash] at h
                simp only [Bool.or_eq_true, not_or, Bool.not_eq_true] at hclash
                obtain ⟨r, hr, hrange⟩ := validate_seat_ok (by cases u; exact hval)
                exact ⟨⟨sess, rfl, dome, hdome, r, hr, hrange⟩,
                  hclash.1, hclash.2, (Except.ok.inj h).symm⟩

/-- When some requested ticket fails the per-ticket validation, the
validation pass over the whole list fails. -/
theorem validateTickets_error_of_mem {st : DBState} :
    ∀ {td : List TicketInput} {t : TicketInput},
      t ∈ td → (∃ e0, TicketSerializer.validate st t = .error e0) →
      ∃ e, validateTickets st td = .error e := by
  intro td
  induction td with
  | nil => intro t h _; simp at h
  | cons u us ih =>
      rintro t hmem ⟨e0, he0⟩
      cases hu : TicketSerializer.validate st u with
      | error e => exact ⟨e, by rw [validateTickets, hu]⟩
      | ok v =>
          rcases List.mem_cons.mp hmem with heq | hmem2
          · subst heq; rw [hu] at he0; exact absurd he0 (by simp)
          · obtain ⟨e, he⟩ := ih hmem2 ⟨e0, he0⟩
            exact ⟨e, by rw [validateTickets, hu]; exact he⟩

/-- Requested-ticket key: the per-session seat triple of the request. -/
def ticketInputKey (t : TicketInput) : Nat × Nat × Nat :=
  (t.show_session, t.row, t.seat)

/-- When some requested ticket clashes with a ticket already inserted by
this transaction, the ticket loop fails. -/
theorem createTickets_error_of_acc_clash {st : DBState} {resId : Nat} :
    ∀ (td : List TicketInput) (acc : List Ticket),
      (∃ t ∈ td, acc.any (sameSeatAs t) = true) →
      ∃ e, createTickets st resId acc td = .error e := by
  intro td
  induction td with
  | nil => rintro acc ⟨t, ht, _⟩; simp at ht
  | cons u us ih =>
      rintro acc ⟨t, ht, hclash⟩
      cases hs : Ticket.save st acc resId u with
      | error e => exact ⟨e, by rw [createTickets, hs]⟩
      | ok tk =>
          rcases List.mem_cons.mp ht with heq | hmem
          · subst heq
            rw [(Ticket.save_ok hs).2.2.1] at hclash
            exact absurd hclash (by simp)
          · have hclash' : (acc ++ [tk]).any (sameSeatAs t) = true := by
              rw [List.any_append, hclash]
              simp
            obtain ⟨e, he⟩ := ih (acc ++ [tk]) ⟨t, hmem, hclash'⟩
            exact ⟨e, by rw [createTickets, hs]; exact he⟩

/-- When some requested ticket is already sold in the stored state, the
ticket loop fails. -/
theorem createTickets_error_of_sold {st : DBState} {resId : Nat} :
    ∀ (td : List TicketInput) (acc : List Ticket),
      (∃ t ∈ td, st.tickets.any (sameSeatAs t) = true) →
      ∃ e, createTickets st resId acc td = .error e := by
  intro td
  induction td with
  | nil => rintro acc ⟨t, ht, _⟩; simp at ht
  | cons u us ih =>
      rintro acc ⟨t, ht, hsold⟩
      cases hs : Ticket.save st acc resId u with
      | error e => exact ⟨e, by rw [createTickets, hs]⟩
      | ok tk =>
          rcases List.mem_cons.mp ht with heq | hmem
          · subst heq
            rw [(Ticket.save_ok hs).2.1] at hsold
            exact absurd hsold (by simp)
          · obtain ⟨e, he⟩ := ih (acc ++ [tk]) ⟨t, hmem, hsold⟩
            exact ⟨e, by rw [createTickets, hs]; exact he⟩

/-- When the request repeats a seat triple, the ticket loop fails. -/
theorem createTickets_error_of_dup {st : DBState} {resId : Nat} :
    ∀ (td : List TicketInput) (acc : List Ticket),
      ¬ (td.map ticketInputKey).Nodup →
      ∃ e, createTickets st resId acc td = .error e := by
  intro td
  induction td with
  | nil => intro acc h; simp at h
  | cons u us ih =>
      intro acc hdup
      cases hs : Ticket.save st acc resId u with
      | error e => exact ⟨e, by rw [createTickets, hs]⟩
      | ok tk =>
          rw [List.map_cons, List.nodup_cons] at hdup
          rw [Classical.not_and_iff_or_not_not] at hdup
          rcases hdup with hmemkey | hrest
          · rw [Classical.not_not] at hmemkey
            obtain ⟨t', ht'mem, ht'key⟩ := List.mem_map.mp hmemkey
            have htk := (Ticket.save_ok hs).2.2.2
            have hkey : t'.show_session = u.show_session
                ∧ t'.row = u.row ∧ t'.seat = u.seat := by
              unfold ticketInputKey at ht'key
              exact ⟨congrArg (fun p => p.1) ht'key,
                congrArg (fun p => p.2.1) ht'key,
                congrArg (fun p => p.2.2) ht'key⟩
            have hclash : (acc ++ [tk]).any (sameSeatAs t') = true := by
              rw [List.any_append]
              have : sameSeatAs t' tk = true := by
                rw [htk]
                unfold sameSeatAs
                simp [hkey.1, hkey.2.1, hkey.2.2]
              simp [this]
            obtain ⟨e, he⟩ := createTickets_error_of_acc_clash us (acc ++ [tk])
              ⟨t', ht'mem, hclash⟩
            exact ⟨e, by rw [createTickets, hs]; exact he⟩
          · obtain ⟨e, he⟩ := ih (acc ++ [tk]) hrest
            exact ⟨e, by rw [createTickets, hs]; exact he⟩

/-- A requested ticket that is invalid in the sense of the atomicity
claim: its session id does not resolve, or the row number is missing
from the dome of its session, or the seat is out of the range of that
row, or the seat triple is already sold in the stored state. -/
def InvalidTicket (st : DBState) (t : TicketInput) : Prop :=
  resolveSession st t.show_session = none
  ∨ (∃ sess, resolveSession st t.show_session = some sess
      ∧ ∃ dome, findDome st sess.planetarium_dome = some dome
      ∧ findSeatRow dome t.row = none)
  ∨ (∃ sess, resolveSession st t.show_session = some sess
      ∧ ∃ dome, findDome st sess.planetarium_dome = some dome
      ∧ ∃ r, findSeatRow dome t.row = some r
      ∧ ¬ (1 ≤ t.seat ∧ t.seat ≤ r.seats_in_row))
  ∨ (∃ tk ∈ st.tickets, sameSeatAs t tk = true)

/-- A missing session, missing row or out-of-range seat makes the
per-ticket validation fail. -/
theorem validate_error_of_bad_lookup {st : DBState} {t : TicketInput}
    (h : resolveSession st t.show_session = none
       ∨ (∃ sess, resolveSession st t.show_session = some sess
           ∧ ∃ dome, findDome st sess.planetarium_dome = some dome
           ∧ findSeatRow dome t.row = none)
       ∨ (∃ sess, resolveSession st t.show_session = some sess
           ∧ ∃ dome, findDome st sess.planetarium_dome = some dome
           ∧ ∃ r, findSeatRow dome t.row = some r
           ∧ ¬ (1 ≤ t.seat ∧ t.seat ≤ r.seats_in_row))) :
    ∃ e0, TicketSerializer.validate st t = .error e0 := by
  unfold TicketSerializer.validate
  rcases h with h | ⟨sess, hs, dome, hd, hrow⟩ | ⟨sess, hs, dome, hd, r, hr, hrange⟩
  · rw [h]
    exact ⟨.notFound, rfl⟩
  · rw [hs]
    dsimp only
    rw [hd]
    dsimp only
    unfold Ticket.validate_seat
    rw [hrow]
    exact ⟨.notFound, rfl⟩
  · rw [hs]
    dsimp only
    rw [hd]
    dsimp only
    unfold Ticket.validate_seat
    rw [hr]
    dsimp only
    rw [if_neg hrange]
    exact ⟨_, rfl⟩

/-! ### Claim C1 (atomic reservation creation) -/

/-- Claim C1: a reservation request containing at least one invalid
ticket (missing session, missing row, out-of-range seat, or already-sold
seat) fails as a whole, and the committed state keeps exactly the prior
reservation and ticket rows: every requested ticket is created or none
is. -/
theorem C1_reservation_atomic (st : DBState) (user : Nat)
    (td : List TicketInput) (t : TicketInput)
    (hmem : t ∈ td) (hinv : InvalidTicket st t) :
    (∃ e, ReservationSerializer.create st user td = .error e)
    ∧ (commitD st (ReservationSerializer.create st user td)).reservations =
        st.reservations
    ∧ (commitD st (ReservationSerializer.create st user td)).tickets = st.tickets := by
  have hcond : ¬ (td.isEmpty = true) := by
    cases td with
    | nil => simp at hmem
    | cons a l => simp
  have herr : ∃ e, ReservationSerializer.create st user td = .error e := by
    unfold ReservationSerializer.create
    rw [if_neg hcond]
    cases hval : validateTickets st td with
    | error e => exact ⟨e, rfl⟩
    | ok v =>
        dsimp only
        rcases hinv with h1 | h2 | h3 | h4
        · obtain ⟨e0, hv⟩ := validateTickets_error_of_mem hmem
            (validate_error_of_bad_lookup (Or.inl h1))
          rw [hval] at hv
          exact absurd hv (by simp)
        · obtain ⟨e0, hv⟩ := validateTickets_error_of_mem hmem
            (validate_error_of_bad_lookup (Or.inr (Or.inl h2)))
          rw [hval] at hv
          exact absurd hv (by simp)
        · obtain ⟨e0, hv⟩ := validateTickets_error_of_mem hmem
            (validate_error_of_bad_lookup (Or.inr (Or.inr h3)))
          rw [hval] at hv
          exact absurd hv (by simp)
        · obtain ⟨tk, htk, hsame⟩ := h4
          have hany : st.tickets.any (sameSeatAs t) = true :=
            List.any_eq_true.mpr ⟨tk, htk, hsame⟩
          obtain ⟨e, hce⟩ := createTickets_error_of_sold td [] ⟨t, hmem, hany⟩
          refine ⟨e, ?_⟩
          rw [hce]
  obtain ⟨e, he⟩ := herr
  exact ⟨⟨e, he⟩, by rw [he]; rfl, by rw [he]; rfl⟩

/-- The stored state used by the reservation witnesses: one dome with
row (1,5) and one session in it. -/
def stRes : DBState :=
  runOps [ .createDome
             { name := "Sample dome", description := "", seat_rows := [⟨1, 5⟩] },
           .createSession 1 1 100 ]

/-- Witness for C1 at the spec example: tickets [(1,1,1),(1,1,99)] where
row 1 has 5 seats; the whole request fails and nothing is stored. -/
theorem C1_reservation_atomic_witness :
    ((⟨1, 1, 99⟩ : TicketInput) ∈ ([⟨1, 1, 1⟩, ⟨1, 1, 99⟩] : List TicketInput))
    ∧ InvalidTicket stRes ⟨1, 1, 99⟩
    ∧ ((∃ e, ReservationSerializer.create stRes 7 [⟨1, 1, 1⟩, ⟨1, 1, 99⟩] = .error e)
        ∧ (commitD stRes
            (ReservationSerializer.create stRes 7 [⟨1, 1, 1⟩, ⟨1, 1, 99⟩])).reservations =
            stRes.reservations
        ∧ (commitD stRes
            (ReservationSerializer.create stRes 7 [⟨1, 1, 1⟩, ⟨1, 1, 99⟩])).tickets =
            stRes.tickets) := by
  have hinv : InvalidTicket stRes ⟨1, 1, 99⟩ :=
    Or.inr (Or.inr (Or.inl ⟨⟨1, 1, 1, 100⟩, rfl,
      ⟨1, "Sample dome", "", [⟨1, 5⟩]⟩, rfl, ⟨1, 5⟩, rfl, by decide⟩))
  exact ⟨by decide, hinv,
    C1_reservation_atomic stRes 7 [⟨1, 1, 1⟩, ⟨1, 1, 99⟩] ⟨1, 1, 99⟩ (by decide) hinv⟩

/-! ### Claim C10 (duplicate seat inside one request) -/

/-- Claim C10: per-session seat uniqueness applies inside a single
reservation request: when the ticket list repeats a
(show_session, row, seat) triple, the whole request fails and the
committed state keeps exactly the prior reservation and ticket rows. -/
theorem C10_duplicate_in_batch (st : DBState) (user : Nat)
    (td : List TicketInput)
    (hdup : ¬ (td.map ticketInputKey).Nodup) :
    (∃ e, ReservationSerializer.create st user td = .error e)
    ∧ (commitD st (ReservationSerializer.create st user td)).reservations =
        st.reservations
    ∧ (commitD st (ReservationSerializer.create st user td)).tickets = st.tickets := by
  have hcond : ¬ (td.isEmpty = true) := by
    cases td with
    | nil => simp at hdup
    | cons a l => simp
  have herr : ∃ e, ReservationSerializer.create st user td = .error e := by
    unfold ReservationSerializer.create
    rw [if_neg hcond]
    cases hval : validateTickets st td with
    | error e => exact ⟨e, rfl⟩
    | ok v =>
        dsimp only
        obtain ⟨e, hce⟩ := createTickets_error_of_dup td [] hdup
        refine ⟨e, ?_⟩
        rw [hce]
  obtain ⟨e, he⟩ := herr
  exact ⟨⟨e, he⟩, by rw [he]; rfl, by rw [he]; rfl⟩

/-- Witness for C10: the same seat (1,1,2) requested twice in one batch
is rejected and nothing is stored. -/
theorem C10_duplicate_in_batch_witness :
    (¬ (([⟨1, 1, 2⟩, ⟨1, 1, 2⟩] : List TicketInput).map ticketInputKey).Nodup)
    ∧ ((∃ e, ReservationSerializer.create stRes 7 [⟨1, 1, 2⟩, ⟨1, 1, 2⟩] = .error e)
        ∧ (commitD stRes
            (ReservationSerializer.create stRes 7 [⟨1, 1, 2⟩, ⟨1, 1, 2⟩])).reservations =
            stRes.reservations
        ∧ (commitD stRes
            (ReservationSerializer.create stRes 7 [⟨1, 1, 2⟩, ⟨1, 1, 2⟩])).tickets =
            stRes.tickets) :=
  ⟨by decide, C10_duplicate_in_batch stRes 7 [⟨1, 1, 2⟩, ⟨1, 1, 2⟩] (by decide)⟩

/-! ### Capacity counting -/

/-- Stored-ticket key: the per-session seat triple enforced unique by
`Ticket.Meta.unique_together`. -/
def ticketKey (tk : Ticket) : Nat × Nat × Nat :=
  (tk.show_session, tk.row, tk.seat)

/-- A stored ticket consistent with the stored sessions, domes and seat
rows: its session resolves, the dome of the session exists, the row
exists in that dome and the seat is within the row. -/
def ValidTicket (st : DBState) (tk : Ticket) : Prop :=
  ∃ sess, resolveSession st tk.show_session = some sess
    ∧ ∃ dome, findDome st sess.planetarium_dome = some dome
    ∧ ∃ r, findSeatRow dome tk.row = some r
    ∧ 1 ≤ tk.seat ∧ tk.seat ≤ r.seats_in_row

/-- The capacity fold is the sum of the seat counts. -/
theorem capacity_eq_sum (d : PlanetariumDome) :
    d.capacity = (d.seat_rows.map (fun r => r.seats_in_row)).sum := by
  unfold PlanetariumDome.capacity
  have h : ∀ (rows : List SeatRow) (acc : Nat),
      rows.foldl (fun a r => a + r.seats_in_row) acc =
        acc + (rows.map (fun r => r.seats_in_row)).sum := by
    intro rows
    induction rows with
    | nil => intro acc; simp
    | cons r rest ih =>
        intro acc
        rw [List.foldl_cons, ih, List.map_cons, List.sum_cons]
        omega
  rw [h]
  omega

/-- The set of seat positions of a row list: pairs (row_number, seat)
with the seat inside the row. -/
def validPairs : List SeatRow → Finset (Nat × Nat)
  | [] => ∅
  | r :: rest => ({r.row_number} ×ˢ Finset.Icc 1 r.seats_in_row) ∪ validPairs rest

/-- Membership in `validPairs`. -/
theorem mem_validPairs {p : Nat × Nat} :
    ∀ {rows : List SeatRow}, p ∈ validPairs rows ↔
      ∃ r ∈ rows, r.row_number = p.1 ∧ 1 ≤ p.2 ∧ p.2 ≤ r.seats_in_row := by
  intro rows
  induction rows with
  | nil => simp [validPairs]
  | cons r rest ih =>
      rw [validPairs, Finset.mem_union, ih]
      rw [Finset.mem_product, Finset.mem_singleton, Finset.mem_Icc]
      constructor
      · rintro (⟨h1, h2, h3⟩ | ⟨q, hq, hprop⟩)
        · exact ⟨r, List.mem_cons_self _ _, h1.symm, h2, h3⟩
        · exact ⟨q, List.mem_cons_of_mem _ hq, hprop⟩
      · rintro ⟨q, hq, h1, h2, h3⟩
        rcases List.mem_cons.mp hq with heq | hmem
        · subst heq
          exact Or.inl ⟨h1.symm, h2, h3⟩
        · exact Or.inr ⟨q, hmem, h1, h2, h3⟩

/-- Under distinct row numbers the seat positions count to the summed
seat counts, the capacity. -/
theorem card_validPairs :
    ∀ {rows : List SeatRow},
      (rows.map (fun r => r.row_number)).Nodup →
      (validPairs rows).card = (rows.map (fun r => r.seats_in_row)).sum := by
  intro rows
  induction rows with
  | nil => intro _; simp [validPairs]
  | cons r rest ih =>
      intro hnodup
      rw [List.map_cons, List.nodup_cons] at hnodup
      obtain ⟨hnot, hrest⟩ := hnodup
      have hdisj : Disjoint ({r.row_number} ×ˢ Finset.Icc 1 r.seats_in_row)
          (validPairs rest) := by
        rw [Finset.disjoint_left]
        intro p hp hq
        rw [Finset.mem_product, Finset.mem_singleton] at hp
        obtain ⟨q, hqmem, hqnum, _⟩ := mem_validPairs.mp hq
        apply hnot
        rw [List.mem_map]
        exact ⟨q, hqmem, by rw [hqnum, ← hp.1]⟩
      rw [validPairs, Finset.card_union_of_disjoint hdisj, Finset.card_product]
      rw [ih hrest, List.map_cons, List.sum_cons]
      simp [Nat.card_Icc]

/-- Pigeonhole: with unique seat triples and every ticket valid, a
session never has more tickets than the capacity of its dome. -/
theorem ticketCount_le_capacity {st : DBState} {sid : Nat}
    {sess : ShowSession} {dome : PlanetariumDome}
    (hkeys : (st.tickets.map ticketKey).Nodup)
    (hvalid : ∀ tk ∈ st.tickets, ValidTicket st tk)
    (hres : resolveSession st sid = some sess)
    (hdome : findDome st sess.planetarium_dome = some dome)
    (hrows : (dome.seat_rows.map (fun r => r.row_number)).Nodup) :
    ticketCount st sid ≤ dome.capacity := by
  have hsub : List.Sublist (st.tickets.filter (fun tk => tk.show_session == sid))
      st.tickets :=
    List.filter_sublist _
  have hlkeys : ((st.tickets.filter (fun tk => tk.show_session == sid)).map
      ticketKey).Nodup :=
    List.Nodup.sublist (List.Sublist.map ticketKey hsub) hkeys
  have hsid : ∀ tk ∈ st.tickets.filter (fun tk => tk.show_session == sid),
      tk.show_session = sid := by
    intro tk htk
    have h1 : (tk.show_session == sid) = true := (List.mem_filter.mp htk).2
    exact eq_of_beq h1
  have hmapeq : (st.tickets.filter (fun tk => tk.show_session == sid)).map ticketKey =
      ((st.tickets.filter (fun tk => tk.show_session == sid)).map
        (fun tk => (tk.row, tk.seat))).map (fun p => (sid, p)) := by
    rw [List.map_map]
    apply List.map_congr_left
    intro tk htk
    unfold ticketKey
    rw [hsid tk htk]
    rfl
  have hmnodup : ((st.tickets.filter (fun tk => tk.show_session == sid)).map
      (fun tk => (tk.row, tk.seat))).Nodup := by
    apply List.Nodup.of_map (fun p => ((sid, p) : Nat × Nat × Nat))
    rw [← hmapeq]
    exact hlkeys
  have hmemvp : ∀ p ∈ (st.tickets.filter (fun tk => tk.show_session == sid)).map
      (fun tk => (tk.row, tk.seat)), p ∈ validPairs dome.seat_rows := by
    intro p hp
    obtain ⟨tk, htkmem, htkeq⟩ := List.mem_map.mp hp
    have htkall : tk ∈ st.tickets := List.mem_of_mem_filter htkmem
    obtain ⟨sess2, hres2, dome2, hdome2, r, hr, hrange⟩ := hvalid tk htkall
    rw [hsid tk htkmem, hres] at hres2
    have heqs : sess = sess2 := Option.some.inj hres2
    rw [← heqs, hdome] at hdome2
    have heqd : dome = dome2 := Option.some.inj hdome2
    rw [← heqd] at hr
    have hr' : dome.seat_rows.find? (fun q => q.row_number == tk.row) = some r := hr
    have hrmem : r ∈ dome.seat_rows := List.mem_of_find?_eq_some hr'
    have h2 := List.find?_some hr'
    have hrnum : r.row_number = tk.row := eq_of_beq h2
    apply mem_validPairs.mpr
    refine ⟨r, hrmem, ?_, ?_, ?_⟩
    · rw [← htkeq, hrnum]
    · rw [← htkeq]; exact hrange.1
    · rw [← htkeq]; exact hrange.2
  have hlen : ((st.tickets.filter (fun tk => tk.show_session == sid)).map
      (fun tk => (tk.row, tk.seat))).length ≤ (validPairs dome.seat_rows).card := by
    rw [← List.toFinset_card_of_nodup hmnodup]
    apply Finset.card_le_card
    intro p hp
    rw [List.mem_toFinset] at hp
    exact hmemvp p hp
  rw [List.length_map] at hlen
  unfold ticketCount
  rw [capacity_eq_sum, ← card_validPairs hrows]
  exact hlen

/-! ### Well-formed states and reachability -/

/-- Foreign-key integrity of the session-to-dome reference: every
stored session points at an existing dome (domes are never deleted and
both session create and session update validate the dome pk). -/
def DomesOk (st : DBState) : Prop :=
  ∀ sess ∈ st.sessions, ∃ d, findDome st sess.planetarium_dome = some d

/-- The storage invariants: distinct row numbers inside each dome
(unique constraint of `SeatRow`), distinct seat triples
(`Ticket.Meta.unique_together`), every ticket consistent with its
session and dome, and every session referencing an existing dome. -/
def WfState (st : DBState) : Prop :=
  (∀ d ∈ st.domes, (d.seat_rows.map (fun r => r.row_number)).Nodup)
  ∧ (st.tickets.map ticketKey).Nodup
  ∧ (∀ tk ∈ st.tickets, ValidTicket st tk)
  ∧ DomesOk st

/-- Inversion of a successful dome creation. -/
theorem domeCreateOp_ok {st : DBState} {input : DomeInput} {st' : DBState}
    (h : domeCreateOp st input = .ok st') :
    (input.seat_rows.map (fun r => r.row_number)).Nodup
    ∧ st' = { st with
              domes := st.domes ++
                [{ id := st.domes.length + 1, name := input.name,
                   description := input.description,
                   seat_rows := input.seat_rows }] } := by
  unfold domeCreateOp at h
  by_cases he : input.seat_rows.isEmpty = true
  · rw [if_pos he] at h; exact absurd h (by simp)
  · rw [if_neg he] at h
    by_cases hn : (input.seat_rows.map (fun r => r.row_number)).Nodup
    · rw [if_pos hn] at h
      exact ⟨hn, (Except.ok.inj h).symm⟩
    · rw [if_neg hn] at h; exact absurd h (by simp)

/-- Inversion of a successful session creation. -/
theorem sessionCreateOp_ok {st : DBState} {showId domeId : Nat} {b : Int}
    {st' : DBState}
    (h : sessionCreateOp st showId domeId b = .ok st') :
    (∃ d, findDome st domeId = some d)
    ∧ st' = { st with
              sessions := st.sessions ++
                [{ id := st.sessions.length + 1, astronomy_show := showId,
                   planetarium_dome := domeId, show_begin := b }] } := by
  unfold sessionCreateOp at h
  cases hd : findDome st domeId with
  | none => rw [hd] at h; exact absurd h (by simp)
  | some d =>
      rw [hd] at h
      dsimp only at h
      exact ⟨⟨d, rfl⟩, (Except.ok.inj h).symm⟩

/-- Inversion of a successful reservation creation. -/
theorem reservation_create_ok {st : DBState} {user : Nat}
    {td : List TicketInput} {st' : DBState}
    (h : ReservationSerializer.create st user td = .ok st') :
    ∃ tks, createTickets st (st.reservations.length + 1) [] td = .ok tks
      ∧ st' = { st with
                reservations := st.reservations ++
                  [{ id := st.reservations.length + 1, user := user }],
                tickets := st.tickets ++ tks } := by
  unfold ReservationSerializer.create at h
  by_cases hc : td.isEmpty = true
  · rw [if_pos hc] at h; exact absurd h (by simp)
  · rw [if_neg hc] at h
    cases hval : validateTickets st td with
    | error e => rw [hval] at h; exact absurd h (by simp)
    | ok v =>
        rw [hval] at h
        dsimp only at h
        cases hct : createTickets st (st.reservations.length + 1) [] td with
        | error e => rw [hct] at h; exact absurd h (by simp)
        | ok tks =>
            rw [hct] at h
            exact ⟨tks, rfl, (Except.ok.inj h).symm⟩

/-- A clash-free triple differs in key from the inserted ticket. -/
theorem key_ne_of_sameSeatAs_false {u : TicketInput} {x : Ticket}
    (h : sameSeatAs u x = false) :
    ticketKey x ≠ (u.show_session, u.row, u.seat) := by
  intro hk
  unfold ticketKey at hk
  have h1 : x.show_session = u.show_session := congrArg (fun p => p.1) hk
  have h2 : x.row = u.row := congrArg (fun p => p.2.1) hk
  have h3 : x.seat = u.seat := congrArg (fun p => p.2.2) hk
  have : sameSeatAs u x = true := by
    unfold sameSeatAs
    simp [h1, h2, h3]
  rw [this] at h
  exact absurd h (by simp)

/-- A successful ticket loop keeps the seat triples of the stored plus
created tickets distinct, and every created ticket valid. -/
theorem createTickets_ok_wf {st : DBState} {resId : Nat} :
    ∀ (td : List TicketInput) (acc : List Ticket) (out : List Ticket),
      createTickets st resId acc td = .ok out →
      ((st.tickets ++ acc).map ticketKey).Nodup →
      (∀ tk ∈ acc, ValidTicket st tk) →
      ((st.tickets ++ out).map ticketKey).Nodup
      ∧ (∀ tk ∈ out, ValidTicket st tk) := by
  intro td
  induction td with
  | nil =>
      intro acc out h hnodup hvalid
      rw [createTickets] at h
      have : acc = out := Except.ok.inj h
      exact this ▸ ⟨hnodup, hvalid⟩
  | cons u us ih =>
      intro acc out h hnodup hvalid
      cases hs : Ticket.save st acc resId u with
      | error e => rw [createTickets, hs] at h; exact absurd h (by simp)
      | ok tk =>
          rw [createTickets, hs] at h
          obtain ⟨⟨sess, hses, dome, hdome, r, hr, hrange⟩, hnost, hnoacc, htk⟩ :=
            Ticket.save_ok hs
          have htkvalid : ValidTicket st tk := by
            rw [htk]
            exact ⟨sess, hses, dome, hdome, r, hr, hrange⟩
          have hfresh : ticketKey tk ∉ (st.tickets ++ acc).map ticketKey := by
            intro hmem
            obtain ⟨x, hxmem, hxkey⟩ := List.mem_map.mp hmem
            have hxfalse : sameSeatAs u x = false := by
              rcases List.mem_append.mp hxmem with hx | hx
              · cases hxs : sameSeatAs u x
                · rfl
                · rw [List.any_eq_true.mpr ⟨x, hx, hxs⟩] at hnost
                  exact absurd hnost (by simp)
              · cases hxs : sameSeatAs u x
                · rfl
                · rw [List.any_eq_true.mpr ⟨x, hx, hxs⟩] at hnoacc
                  exact absurd hnoacc (by simp)
            have hxk : ticketKey x = (u.show_session, u.row, u.seat) := by
              rw [hxkey, htk]
              rfl
            exact key_ne_of_sameSeatAs_false hxfalse hxk
          have hnodup' : ((st.tickets ++ (acc ++ [tk])).map ticketKey).Nodup := by
            rw [← List.append_assoc, List.map_append]
            rw [List.nodup_append]
            refine ⟨hnodup, List.nodup_singleton _, ?_⟩
            intro a ha hb
            rw [List.map_singleton, List.mem_singleton] at hb
            exact hfresh (hb ▸ ha)
          have hvalid' : ∀ x ∈ acc ++ [tk], ValidTicket st x := by
            intro x hx
            rcases List.mem_append.mp hx with hx | hx
            · exact hvalid x hx
            · rw [List.mem_singleton] at hx
              exact hx ▸ htkvalid
          exact ih (acc ++ [tk]) out h hnodup' hvalid'

/-- Dome creation preserves the storage invariants. -/
theorem wf_createDome {st st' : DBState} {input : DomeInput}
    (hwf : WfState st) (h : domeCreateOp st input = .ok st') : WfState st' := by
  obtain ⟨hnodup, hst'⟩ := domeCreateOp_ok h
  obtain ⟨hdomes, hkeys, hvalid, hsess⟩ := hwf
  subst hst'
  refine ⟨?_, hkeys, ?_, ?_⟩
  · intro d hd
    rcases List.mem_append.mp hd with hd | hd
    · exact hdomes d hd
    · rw [List.mem_singleton] at hd
      subst hd
      exact hnodup
  · intro tk htk
    obtain ⟨sess, hses, dome, hdome, rest⟩ := hvalid tk htk
    exact ⟨sess, hses, dome, find?_append_left _ hdome, rest⟩
  · intro sess hs
    obtain ⟨d, hd⟩ := hsess sess hs
    exact ⟨d, find?_append_left _ hd⟩

/-- Session creation preserves the storage invariants. -/
theorem wf_createSession {st st' : DBState} {showId domeId : Nat} {b : Int}
    (hwf : WfState st) (h : sessionCreateOp st showId domeId b = .ok st') :
    WfState st' := by
  obtain ⟨⟨d0, hd0⟩, hst'⟩ := sessionCreateOp_ok h
  obtain ⟨hdomes, hkeys, hvalid, hsess⟩ := hwf
  subst hst'
  refine ⟨hdomes, hkeys, ?_, ?_⟩
  · intro tk htk
    obtain ⟨sess, hses, rest⟩ := hvalid tk htk
    exact ⟨sess, find?_append_left _ hses, rest⟩
  · intro sess hs
    rcases List.mem_append.mp hs with hs | hs
    · exact hsess sess hs
    · rw [List.mem_singleton] at hs
      subst hs
      exact ⟨d0, hd0⟩

/-- Reservation creation preserves the storage invariants. -/
theorem wf_createReservation {st st' : DBState} {user : Nat}
    {td : List TicketInput}
    (hwf : WfState st) (h : ReservationSerializer.create st user td = .ok st') :
    WfState st' := by
  obtain ⟨tks, hct, hst'⟩ := reservation_create_ok h
  obtain ⟨hdomes, hkeys, hvalid, hsess⟩ := hwf
  obtain ⟨hkeys', hvalid'⟩ := createTickets_ok_wf td [] tks hct
    (by rw [List.append_nil]; exact hkeys)
    (by intro tk htk; simp at htk)
  subst hst'
  refine ⟨hdomes, hkeys', ?_, hsess⟩
  intro tk htk
  rcases List.mem_append.mp htk with htk | htk
  · exact hvalid tk htk
  · exact hvalid' tk htk

/-- One committed request that is neither a dome update nor a session
update preserves the storage invariants. -/
theorem step_preserves_wf {st : DBState} {op : Op}
    (hwf : WfState st) (hnu : op.isUpdate = false) :
    WfState (step st op) := by
  cases op with
  | createDome input =>
      show WfState (commitD st (domeCreateOp st input))
      cases h : domeCreateOp st input with
      | error e => exact hwf
      | ok st' => exact wf_createDome hwf h
  | updateDome domeId input =>
      exact absurd hnu (by simp [Op.isUpdate])
  | updateSession sid input =>
      exact absurd hnu (by simp [Op.isUpdate])
  | createSession showId domeId b =>
      show WfState (commitD st (sessionCreateOp st showId domeId b))
      cases h : sessionCreateOp st showId domeId b with
      | error e => exact hwf
      | ok st' => exact wf_createSession hwf h
  | createReservation user td =>
      show WfState (commitD st (ReservationSerializer.create st user td))
      cases h : ReservationSerializer.create st user td with
      | error e => exact hwf
      | ok st' => exact wf_createReservation hwf h

/-- Folding committed requests without dome or session updates
preserves the storage invariants. -/
theorem wf_foldl :
    ∀ (ops : List Op) (st : DBState), WfState st →
      (∀ op ∈ ops, op.isUpdate = false) → WfState (ops.foldl step st) := by
  intro ops
  induction ops with
  | nil => intro st hwf _; exact hwf
  | cons op rest ih =>
      intro st hwf hall
      rw [List.foldl_cons]
      exact ih _ (step_preserves_wf hwf (hall op (List.mem_cons_self _ _)))
        (fun o ho => hall o (List.mem_cons_of_mem _ ho))

/-- The empty database satisfies the storage invariants. -/
theorem wf_initState : WfState initState :=
  ⟨by intro d hd; simp [initState] at hd,
   by simp [initState],
   by intro tk htk; simp [initState] at htk,
   by intro sess hs; simp [initState] at hs⟩

/-- Every state reachable without dome or session updates satisfies the
storage invariants. -/
theorem wf_of_reachable_noupdate {st : DBState}
    (h : ReachableNoUpdate st) : WfState st := by
  obtain ⟨ops, hall, hrun⟩ := h
  rw [← hrun]
  unfold runOps
  exact wf_foldl ops initState wf_initState hall


/-- A map whose function leaves the search predicate of every element
unchanged preserves the success of `find?`. -/
theorem find?_map_pres {α : Type} {p : α → Bool} {f : α → α}
    (hf : ∀ a, p (f a) = p a) :
    ∀ {l : List α} {y : α}, l.find? p = some y → ∃ z, (l.map f).find? p = some z := by
  intro l
  induction l with
  | nil => intro y h; simp [List.find?] at h
  | cons a t ih =>
      intro y h
      by_cases hp : p a = true
      · have hpf : p (f a) = true := by rw [hf a]; exact hp
        rw [List.map_cons]
        exact ⟨f a, List.find?_cons_of_pos _ hpf⟩
      · have hpf : ¬ p (f a) = true := by rw [hf a]; exact hp
        rw [List.find?_cons_of_neg _ hp] at h
        rw [List.map_cons, List.find?_cons_of_neg _ hpf]
        exact ih h

/-- Inversion of a successful dome update. -/
theorem domeUpdateOp_ok {st : DBState} {domeId : Nat} {input : DomeInput}
    {st' : DBState} (h : domeUpdateOp st domeId input = .ok st') :
    ∃ dome rows', findDome st domeId = some dome
      ∧ domeUpdateRows dome.seat_rows [] input.seat_rows = .ok rows'
      ∧ st' = { st with domes := st.domes.map (fun d =>
          if d.id == domeId then { dome with seat_rows := rows' } else d) } := by
  unfold domeUpdateOp at h
  cases hd : findDome st domeId with
  | none => rw [hd] at h; exact absurd h (by simp)
  | some dome =>
      rw [hd] at h
      dsimp only at h
      unfold PlanetariumDomeSerializer.update at h
      cases hr : domeUpdateRows dome.seat_rows [] input.seat_rows with
      | error e => rw [hr] at h; exact absurd h (by simp)
      | ok rows' =>
          rw [hr] at h
          dsimp only at h
          exact ⟨dome, rows', rfl, hr, (Except.ok.inj h).symm⟩

/-- Inversion of a successful session update. -/
theorem sessionUpdateOp_ok {st : DBState} {sid : Nat} {input : SessionInput}
    {st' : DBState} (h : sessionUpdateOp st sid input = .ok st') :
    (∃ d, findDome st input.planetarium_dome = some d)
    ∧ st' = { st with sessions := st.sessions.map (fun s =>
        if s.id == sid then
          { s with astronomy_show := input.astronomy_show,
                   planetarium_dome := input.planetarium_dome,
                   show_begin := input.show_begin }
        else s) } := by
  unfold sessionUpdateOp at h
  cases hs : resolveSession st sid with
  | none => rw [hs] at h; exact absurd h (by simp)
  | some sess =>
      rw [hs] at h
      dsimp only at h
      cases hd : findDome st input.planetarium_dome with
      | none => rw [hd] at h; exact absurd h (by simp)
      | some d =>
          rw [hd] at h
          dsimp only at h
          exact ⟨⟨d, rfl⟩, (Except.ok.inj h).symm⟩

/-- Dome creation preserves session-to-dome integrity. -/
theorem domesOk_createDome {st st' : DBState} {input : DomeInput}
    (hok : DomesOk st) (h : domeCreateOp st input = .ok st') : DomesOk st' := by
  obtain ⟨_, hst'⟩ := domeCreateOp_ok h
  subst hst'
  intro sess hs
  obtain ⟨d, hd⟩ := hok sess hs
  exact ⟨d, find?_append_left _ hd⟩

/-- A dome update replaces a dome in place (same id), so it preserves
session-to-dome integrity. -/
theorem domesOk_updateDome {st st' : DBState} {domeId : Nat} {input : DomeInput}
    (hok : DomesOk st) (h : domeUpdateOp st domeId input = .ok st') : DomesOk st' := by
  obtain ⟨dome, rows', hd0, hrows, hst'⟩ := domeUpdateOp_ok h
  have hd0' : st.domes.find? (fun d => d.id == domeId) = some dome := hd0
  have hb := List.find?_some hd0'
  have hid : dome.id = domeId := eq_of_beq hb
  subst hst'
  intro sess hs
  obtain ⟨d, hd⟩ := hok sess hs
  have hd' : st.domes.find? (fun q => q.id == sess.planetarium_dome) = some d := hd
  have hf : ∀ a : PlanetariumDome,
      (((fun q => if q.id == domeId then { dome with seat_rows := rows' } else q) a).id ==
        sess.planetarium_dome) = (a.id == sess.planetarium_dome) := by
    intro a
    by_cases hc : (a.id == domeId) = true
    · have ha : a.id = domeId := eq_of_beq hc
      dsimp only
      rw [if_pos hc]
      show (dome.id == sess.planetarium_dome) = (a.id == sess.planetarium_dome)
      rw [hid, ha]
    · dsimp only
      rw [if_neg hc]
  obtain ⟨z, hz⟩ := find?_map_pres hf hd'
  exact ⟨z, hz⟩

/-- Session creation preserves session-to-dome integrity. -/
theorem domesOk_createSession {st st' : DBState} {showId domeId : Nat} {b : Int}
    (hok : DomesOk st) (h : sessionCreateOp st showId domeId b = .ok st') :
    DomesOk st' := by
  obtain ⟨⟨d0, hd0⟩, hst'⟩ := sessionCreateOp_ok h
  subst hst'
  intro sess hs
  rcases List.mem_append.mp hs with hs | hs
  · exact hok sess hs
  · rw [List.mem_singleton] at hs
    subst hs
    exact ⟨d0, hd0⟩

/-- A session update validates the new dome pk, so it preserves
session-to-dome integrity. -/
theorem domesOk_updateSession {st st' : DBState} {sid : Nat} {input : SessionInput}
    (hok : DomesOk st) (h : sessionUpdateOp st sid input = .ok st') : DomesOk st' := by
  obtain ⟨⟨d0, hd0⟩, hst'⟩ := sessionUpdateOp_ok h
  subst hst'
  intro sess hs
  obtain ⟨s0, hs0, hgs⟩ := List.mem_map.mp hs
  by_cases hc : (s0.id == sid) = true
  · rw [if_pos hc] at hgs
    rw [← hgs]
    exact ⟨d0, hd0⟩
  · rw [if_neg hc] at hgs
    rw [← hgs]
    exact hok s0 hs0

/-- Reservation creation touches neither sessions nor domes, so it
preserves session-to-dome integrity. -/
theorem domesOk_createReservation {st st' : DBState} {user : Nat}
    {td : List TicketInput}
    (hok : DomesOk st) (h : ReservationSerializer.create st user td = .ok st') :
    DomesOk st' := by
  obtain ⟨tks, hct, hst'⟩ := reservation_create_ok h
  subst hst'
  intro sess hs
  exact hok sess hs

/-- Every committed request preserves session-to-dome integrity. -/
theorem domesOk_step {st : DBState} (hok : DomesOk st) (op : Op) :
    DomesOk (step st op) := by
  cases op with
  | createDome input =>
      show DomesOk (commitD st (domeCreateOp st input))
      cases h : domeCreateOp st input with
      | error e => exact hok
      | ok st' => exact domesOk_createDome hok h
  | updateDome domeId input =>
      show DomesOk (commitD st (domeUpdateOp st domeId input))
      cases h : domeUpdateOp st domeId input with
      | error e => exact hok
      | ok st' => exact domesOk_updateDome hok h
  | createSession showId domeId b =>
      show DomesOk (commitD st (sessionCreateOp st showId domeId b))
      cases h : sessionCreateOp st showId domeId b with
      | error e => exact hok
      | ok st' => exact domesOk_createSession hok h
  | updateSession sid input =>
      show DomesOk (commitD st (sessionUpdateOp st sid input))
      cases h : sessionUpdateOp st sid input with
      | error e => exact hok
      | ok st' => exact domesOk_updateSession hok h
  | createReservation user td =>
      show DomesOk (commitD st (ReservationSerializer.create st user td))
      cases h : ReservationSerializer.create st user td with
      | error e => exact hok
      | ok st' => exact domesOk_createReservation hok h

/-- Folding committed requests preserves session-to-dome integrity. -/
theorem domesOk_foldl :
    ∀ (ops : List Op) (st : DBState), DomesOk st → DomesOk (ops.foldl step st) := by
  intro ops
  induction ops with
  | nil => intro st hok; exact hok
  | cons op rest ih =>
      intro st hok
      rw [List.foldl_cons]
      exact ih _ (domesOk_step hok op)

/-- The empty database has session-to-dome integrity. -/
theorem domesOk_initState : DomesOk initState := by
  intro sess hs
  simp [initState] at hs

/-- Every reachable state has session-to-dome integrity. -/
theorem domesOk_of_reachable {st : DBState} (h : Reachable st) : DomesOk st := by
  obtain ⟨ops, hrun⟩ := h
  rw [← hrun]
  unfold runOps
  exact domesOk_foldl ops initState domesOk_initState

/-! ### Claim C4 (available seats) -/

/-- A request sequence whose final dome update shrinks row 1 from 2
seats to 1 seat after both seats were sold. -/
def opsC4 : List Op :=
  [ .createDome { name := "Sample dome", description := "", seat_rows := [⟨1, 2⟩] },
    .createSession 1 1 100,
    .createReservation 7 [⟨1, 1, 1⟩, ⟨1, 1, 2⟩],
    .updateDome 1 { name := "Sample dome", description := "", seat_rows := [⟨1, 1⟩] } ]

/-- A request sequence with no dome update whose final session update
re-points the session with 2 sold seats to a 1-seat dome. -/
def opsC4session : List Op :=
  [ .createDome { name := "Big dome", description := "", seat_rows := [⟨1, 2⟩] },
    .createDome { name := "Small dome", description := "", seat_rows := [⟨1, 1⟩] },
    .createSession 1 1 100,
    .createReservation 7 [⟨1, 1, 1⟩, ⟨1, 1, 2⟩],
    .updateSession 1 ⟨1, 2, 100⟩ ]

/-- Counterexample to C4 as stated: reachable states in which the
available seats of a session are negative.  Both update paths break the
bound: a dome update shrinking a row below the sold tickets, and a
session update re-pointing a session to a smaller dome with no dome
update anywhere in the run. -/
theorem C4_negative_available_counterexample :
    (Reachable (runOps opsC4)
      ∧ ∃ sess, resolveSession (runOps opsC4) 1 = some sess
          ∧ ShowSessionListSerializer.get_available_seats (runOps opsC4) sess < 0)
    ∧ ((∀ op ∈ opsC4session, op.isDomeUpdate = false)
      ∧ Reachable (runOps opsC4session)
      ∧ ∃ sess, resolveSession (runOps opsC4session) 1 = some sess
          ∧ ShowSessionListSerializer.get_available_seats (runOps opsC4session) sess < 0) :=
  ⟨⟨⟨opsC4, rfl⟩, ⟨⟨1, 1, 1, 100⟩, rfl, by decide⟩⟩,
   by decide, ⟨opsC4session, rfl⟩, ⟨⟨1, 1, 2, 100⟩, rfl, by decide⟩⟩

/-- Claim C4 as amended: in every reachable state, availableSeats of a
resolvable session equals the capacity of the dome of the session minus
the number of its tickets; availableSeats is non-negative in every
state reachable without dome updates and session updates, while either
update (shrinking a row, or re-pointing a session to a smaller dome)
can make it negative. -/
theorem C4_available_seats (st : DBState) (sid : Nat) (sess : ShowSession)
    (hreach : Reachable st)
    (hres : resolveSession st sid = some sess) :
    (∃ dome, findDome st sess.planetarium_dome = some dome
      ∧ ShowSessionListSerializer.get_available_seats st sess =
          (dome.capacity : Int) - (ticketCount st sess.id : Int))
    ∧ (ReachableNoUpdate st →
        0 ≤ ShowSessionListSerializer.get_available_seats st sess) := by
  have hdomesok := domesOk_of_reachable hreach
  have hres' : st.sessions.find? (fun s => s.id == sid) = some sess := hres
  have hmem : sess ∈ st.sessions := List.mem_of_find?_eq_some hres'
  obtain ⟨dome, hdome⟩ := hdomesok sess hmem
  refine ⟨⟨dome, hdome, ?_⟩, ?_⟩
  · unfold ShowSessionListSerializer.get_available_seats
    rw [hdome]
  · intro hnu
    obtain ⟨hdomes, hkeys, hvalid, _⟩ := wf_of_reachable_noupdate hnu
    have hbeq := List.find?_some hres'
    have hsid : sess.id = sid := eq_of_beq hbeq
    have hcount : ticketCount st sess.id ≤ dome.capacity := by
      rw [hsid]
      exact ticketCount_le_capacity hkeys hvalid hres hdome
        (hdomes dome (List.mem_of_find?_eq_some hdome))
    unfold ShowSessionListSerializer.get_available_seats
    rw [hdome]
    dsimp only
    rw [sub_nonneg]
    exact_mod_cast hcount

/-- Witness for the amended C4 at a concrete reachable state: one dome
with row (1,5), one session, no tickets. -/
theorem C4_available_seats_witness :
    Reachable stRes
    ∧ resolveSession stRes 1 = some ⟨1, 1, 1, 100⟩
    ∧ ((∃ dome, findDome stRes (⟨1, 1, 1, 100⟩ : ShowSession).planetarium_dome = some dome
        ∧ ShowSessionListSerializer.get_available_seats stRes ⟨1, 1, 1, 100⟩ =
            (dome.capacity : Int) -
              (ticketCount stRes (⟨1, 1, 1, 100⟩ : ShowSession).id : Int))
       ∧ (ReachableNoUpdate stRes →
            0 ≤ ShowSessionListSerializer.get_available_seats stRes ⟨1, 1, 1, 100⟩))
    ∧ 0 ≤ ShowSessionListSerializer.get_available_seats stRes ⟨1, 1, 1, 100⟩ := by
  have hreach : Reachable stRes :=
    ⟨[ .createDome { name := "Sample dome", description := "", seat_rows := [⟨1, 5⟩] },
       .createSession 1 1 100 ], rfl⟩
  have hthm := C4_available_seats stRes 1 ⟨1, 1, 1, 100⟩ hreach rfl
  refine ⟨hreach, rfl, hthm, ?_⟩
  exact hthm.2
    ⟨[ .createDome { name := "Sample dome", description := "", seat_rows := [⟨1, 5⟩] },
       .createSession 1 1 100 ], by decide, rfl⟩
